import Mathlib

/-!
Verification development for the `pyfibre` client runtime
(`src/fibre/libfibre.py`): a shallow embedding of the codec registry,
the object/interface registries, the call dispatcher and the discovery
front end, together with theorems about the properties the design
document states for them.

Machine integers are modelled as `Nat`/`Int` with explicit bounds;
byte strings as `List Nat` of little-endian bytes (each `< 256`);
fallible Python code as `Except`-returning functions (the raised
exception class is recorded in `PyErr`).
-/

/-- Little-endian byte encoding of `v` on `w` bytes, as produced by
`struct.pack` with a fixed-width little-endian format. -/
def natToLE : Nat → Nat → List Nat
  | 0, _ => []
  | w + 1, v => v % 256 :: natToLE w (v / 256)

/-- Little-endian byte decoding, as performed by `struct.unpack` for a
fixed-width little-endian format. -/
def leToNat : List Nat → Nat
  | [] => 0
  | b :: bs => b % 256 + 256 * leToNat bs

theorem natToLE_length (w v : Nat) : (natToLE w v).length = w := by
  induction w generalizing v with
  | zero => simp [natToLE]
  | succ w ih => simp [natToLE, ih]

theorem mod_mul_split (v b c : Nat) : v % (b * c) = v % b + b * (v / b % c) := by
  calc v % (b * c) = b * (v % (b * c) / b) + v % (b * c) % b := (Nat.div_add_mod _ b).symm
    _ = b * (v / b % c) + v % b := by rw [Nat.mod_mul_right_div_self, Nat.mod_mul_right_mod]
    _ = v % b + b * (v / b % c) := Nat.add_comm _ _

theorem leToNat_natToLE (w v : Nat) : leToNat (natToLE w v) = v % 256 ^ w := by
  induction w generalizing v with
  | zero => simp [natToLE, leToNat]; omega
  | succ w ih =>
    rw [natToLE, leToNat, ih, pow_succ, Nat.mul_comm (256 ^ w) 256, mod_mul_split v 256 (256 ^ w)]
    omega

/-- The Python exception classes that the code in `libfibre.py` can raise
or store into a future.  `typeError`, `structError`, `attributeError`,
`keyError` and `assertionError` are the builtin/stdlib exceptions raised
by the Python-level code itself; the remaining constructors are the
classes produced by `_get_exception` from a libfibre status code. -/
inductive PyErr where
  | typeError (msg : String)
  | structError
  | attributeError (msg : String)
  | keyError
  | assertionError
  | invalidStateError
  | objectLost
  | cancelled
  | argumentError
  | internalError (msg : String)
  | unknownError (code : Int)
  | exception (msg : String)
  deriving DecidableEq, Repr

def kFibreOk : Int := 0
def kFibreCancelled : Int := 1
def kFibreClosed : Int := 2
def kFibreInvalidArgument : Int := 3
def kFibreInternalError : Int := 4

/-- `_get_exception`: maps a libfibre status code to the exception used
to fail a future, or `none` for `kFibreOk`. -/
def get_exception (status : Int) : Option PyErr :=
  if status = kFibreOk then none
  else if status = kFibreCancelled then some .cancelled
  else if status = kFibreClosed then some .objectLost
  else if status = kFibreInvalidArgument then some .argumentError
  else if status = kFibreInternalError then some (.internalError "internal libfibre error")
  else some (.unknownError status)

/-- The mutable per-proxy state of a `RemoteObject` instance.  A live
proxy has `libfibre := true` and `obj_handle = some h`; `_destroy` sets
`_libfibre`, `_obj_handle` and `_on_lost` to `None`, which is modelled by
`libfibre := false`, `obj_handle := none`, `on_lost := false`.  `cls` is
the libfibre interface handle of the proxy's Python class
(`self.__class__._handle`). -/
structure RemoteObject where
  cls : Nat
  libfibre : Bool
  obj_handle : Option Nat
  on_lost : Bool
  deriving DecidableEq, Repr

/-- Python values flowing through the codecs and call machinery.
A `float` is identified with its IEEE-754 binary32 bit pattern: a value
representable by the `float` codec is exactly a binary32 value, and
`struct.pack("<f", v)` emits the four little-endian bytes of that
pattern.  The numeric coercions `int(...)`/`bool(...)`/`float(...)`
performed by `StructCodec.serialize` are modelled on values that already
have the target type (the only values the verified properties range
over). -/
inductive PyValue where
  | none
  | int (i : Int)
  | bool (b : Bool)
  | float (bits : Nat)
  | obj (r : RemoteObject)
  | tuple (vs : List PyValue)
  deriving Repr

/-- The struct format characters appearing in the `codecs` table, all
little-endian fixed-width (`"<b" ... "<Q"`, `"<?"`, `"<f"`). -/
inductive StructFormat where
  | fmt_b | fmt_B | fmt_h | fmt_H | fmt_i | fmt_I | fmt_q | fmt_Q
  | fmt_bool | fmt_f
  deriving DecidableEq, Repr

/-- `struct.calcsize` of the format (no padding: all formats are
explicit little-endian). -/
def StructFormat.width : StructFormat → Nat
  | .fmt_b | .fmt_B | .fmt_bool => 1
  | .fmt_h | .fmt_H => 2
  | .fmt_i | .fmt_I | .fmt_f => 4
  | .fmt_q | .fmt_Q => 8

/-- `struct.pack` on a signed/unsigned `w`-byte integer format: range
check (out of range raises `struct.error`), then two's-complement
little-endian encoding. -/
def packInt (w : Nat) (signed : Bool) (n : Int) : Except PyErr (List Nat) :=
  if signed then
    if -(2 ^ (8 * w - 1) : Int) ≤ n ∧ n ≤ 2 ^ (8 * w - 1) - 1 then
      .ok (natToLE w (n % (2 ^ (8 * w) : Int)).toNat)
    else .error .structError
  else
    if 0 ≤ n ∧ n ≤ (2 ^ (8 * w) : Int) - 1 then
      .ok (natToLE w n.toNat)
    else .error .structError

/-- `struct.unpack` on a signed/unsigned `w`-byte integer format:
requires the buffer to have exactly width `w`, decodes little-endian and
re-centers the signed range. -/
def unpackInt (w : Nat) (signed : Bool) (buf : List Nat) : Except PyErr Int :=
  if buf.length = w then
    let u := leToNat buf
    if signed then
      if 2 ^ (8 * w - 1) ≤ u then .ok ((u : Int) - 2 ^ (8 * w)) else .ok (u : Int)
    else .ok (u : Int)
  else .error .structError

/-- `StructCodec.get_length`: `struct.calcsize(self._struct_format)`. -/
def StructCodec.get_length (fmt : StructFormat) : Nat := fmt.width

/-- `StructCodec.serialize`: `self._target_type(value)` followed by
`struct.pack(self._struct_format, value)`.  Values of a type other than
the codec's target type are rejected (see `PyValue` for the coercion
modelling note). -/
def StructCodec.serialize (fmt : StructFormat) (v : PyValue) : Except PyErr (List Nat) :=
  match fmt, v with
  | .fmt_b, .int n => packInt 1 true n
  | .fmt_B, .int n => packInt 1 false n
  | .fmt_h, .int n => packInt 2 true n
  | .fmt_H, .int n => packInt 2 false n
  | .fmt_i, .int n => packInt 4 true n
  | .fmt_I, .int n => packInt 4 false n
  | .fmt_q, .int n => packInt 8 true n
  | .fmt_Q, .int n => packInt 8 false n
  | .fmt_bool, .bool b => .ok [if b then 1 else 0]
  | .fmt_f, .float bits => if bits < 2 ^ 32 then .ok (natToLE 4 bits) else .error .structError
  | _, _ => .error (.typeError "unsupported operand type for struct packing")

/-- `StructCodec.deserialize`: `struct.unpack(self._struct_format,
buffer)` (single-element tuple unwrapped) followed by the target-type
coercion, which is the identity on the decoded value. -/
def StructCodec.deserialize (fmt : StructFormat) (buf : List Nat) : Except PyErr PyValue :=
  match fmt with
  | .fmt_b => (unpackInt 1 true buf).map .int
  | .fmt_B => (unpackInt 1 false buf).map .int
  | .fmt_h => (unpackInt 2 true buf).map .int
  | .fmt_H => (unpackInt 2 false buf).map .int
  | .fmt_i => (unpackInt 4 true buf).map .int
  | .fmt_I => (unpackInt 4 false buf).map .int
  | .fmt_q => (unpackInt 8 true buf).map .int
  | .fmt_Q => (unpackInt 8 false buf).map .int
  | .fmt_bool =>
    match buf with
    | [x] => .ok (.bool (x != 0))
    | _ => .error .structError
  | .fmt_f => if buf.length = 4 then .ok (.float (leToNat buf)) else .error .structError

/-- The values representable by a struct codec: integers within the
format's range, booleans, binary32 bit patterns. -/
def representable (fmt : StructFormat) (v : PyValue) : Prop :=
  match fmt, v with
  | .fmt_b, .int n => -(2 ^ 7 : Int) ≤ n ∧ n ≤ 2 ^ 7 - 1
  | .fmt_B, .int n => 0 ≤ n ∧ n ≤ (2 ^ 8 : Int) - 1
  | .fmt_h, .int n => -(2 ^ 15 : Int) ≤ n ∧ n ≤ 2 ^ 15 - 1
  | .fmt_H, .int n => 0 ≤ n ∧ n ≤ (2 ^ 16 : Int) - 1
  | .fmt_i, .int n => -(2 ^ 31 : Int) ≤ n ∧ n ≤ 2 ^ 31 - 1
  | .fmt_I, .int n => 0 ≤ n ∧ n ≤ (2 ^ 32 : Int) - 1
  | .fmt_q, .int n => -(2 ^ 63 : Int) ≤ n ∧ n ≤ 2 ^ 63 - 1
  | .fmt_Q, .int n => 0 ≤ n ∧ n ≤ (2 ^ 64 : Int) - 1
  | .fmt_bool, .bool _ => True
  | .fmt_f, .float bits => bits < 2 ^ 32
  | _, _ => False

/-- The kinds of codec values in the `codecs` table. -/
inductive CodecKind where
  | structC (fmt : StructFormat)
  | objectPtr
  deriving DecidableEq, Repr

/-- The `codecs` registry, entry for entry. -/
def codecs : List (String × CodecKind) :=
  [("int8", .structC .fmt_b),
   ("uint8", .structC .fmt_B),
   ("int16", .structC .fmt_h),
   ("uint16", .structC .fmt_H),
   ("int32", .structC .fmt_i),
   ("uint32", .structC .fmt_I),
   ("int64", .structC .fmt_q),
   ("uint64", .structC .fmt_Q),
   ("bool", .structC .fmt_bool),
   ("float", .structC .fmt_f),
   ("object_ref", .objectPtr)]

theorem h256pow (w : Nat) : (256 : Nat) ^ w = 2 ^ (8 * w) := by
  rw [show (256 : Nat) = 2 ^ 8 from rfl, ← pow_mul]

theorem unpack_pack_unsigned (w : Nat) (n : Int) (h0 : 0 ≤ n)
    (h1 : n ≤ (2 ^ (8 * w) : Int) - 1) :
    unpackInt w false (natToLE w n.toNat) = .ok n := by
  have hcast : (((2 ^ (8 * w) : Nat)) : Int) = (2 ^ (8 * w) : Int) := by push_cast; ring
  rw [← hcast] at h1
  have hlt : n.toNat < 2 ^ (8 * w) := by omega
  rw [unpackInt, if_pos (natToLE_length _ _)]
  simp only [leToNat_natToLE, h256pow, Nat.mod_eq_of_lt hlt, Bool.false_eq_true, if_false]
  rw [Int.toNat_of_nonneg h0]

theorem unpack_pack_signed (w : Nat) (hw : 1 ≤ w) (n : Int)
    (h0 : -(2 ^ (8 * w - 1) : Int) ≤ n) (h1 : n ≤ (2 ^ (8 * w - 1) : Int) - 1) :
    unpackInt w true (natToLE w (n % (2 ^ (8 * w) : Int)).toNat) = .ok n := by
  have hMH : (2 ^ (8 * w) : Int) = 2 * 2 ^ (8 * w - 1) := by
    have hp := pow_succ (2 : Int) (8 * w - 1)
    rw [show 8 * w - 1 + 1 = 8 * w from by omega] at hp
    omega
  have hHpos : (0 : Int) < 2 ^ (8 * w - 1) := by positivity
  have hMpos : (0 : Int) < 2 ^ (8 * w) := by positivity
  have hemod0 : 0 ≤ n % (2 ^ (8 * w) : Int) := Int.emod_nonneg n (by omega)
  have hemodM : n % (2 ^ (8 * w) : Int) < 2 ^ (8 * w) := Int.emod_lt_of_pos n hMpos
  have hval : (0 ≤ n ∧ n % (2 ^ (8 * w) : Int) = n) ∨
      (n < 0 ∧ n % (2 ^ (8 * w) : Int) = n + 2 ^ (8 * w)) := by
    by_cases hn : 0 ≤ n
    · exact .inl ⟨hn, Int.emod_eq_of_lt hn (by omega)⟩
    · refine .inr ⟨by omega, ?_⟩
      have h2 : (n + (2 ^ (8 * w) : Int) * 1) % (2 ^ (8 * w) : Int) = n % (2 ^ (8 * w) : Int) :=
        Int.add_mul_emod_self_left n (2 ^ (8 * w) : Int) 1
      rw [mul_one] at h2
      rw [← h2, Int.emod_eq_of_lt (by omega) (by omega)]
  have hcastM : (((2 ^ (8 * w) : Nat)) : Int) = (2 ^ (8 * w) : Int) := by push_cast; ring
  have hlt : (n % (2 ^ (8 * w) : Int)).toNat < 2 ^ (8 * w) := by omega
  rw [unpackInt, if_pos (natToLE_length _ _)]
  simp only [leToNat_natToLE, h256pow, Nat.mod_eq_of_lt hlt, if_true]
  split
  case isTrue h =>
    have h' := (Nat.cast_le (α := Int)).mpr h
    push_cast at h'
    simp only [Except.ok.injEq]
    omega
  case isFalse h =>
    have h' := (Nat.cast_lt (α := Int)).mpr (Nat.lt_of_not_le h)
    push_cast at h'
    simp only [Except.ok.injEq]
    omega

theorem struct_roundtrip_signed (w : Nat) (hw : 1 ≤ w) (n : Int)
    (h0 : -(2 ^ (8 * w - 1) : Int) ≤ n) (h1 : n ≤ (2 ^ (8 * w - 1) : Int) - 1) :
    ∃ bs, packInt w true n = .ok bs ∧ bs.length = w ∧
      (unpackInt w true bs).map PyValue.int = .ok (.int n) := by
  refine ⟨natToLE w ((n % (2 ^ (8 * w) : Int)).toNat), ?_, natToLE_length _ _, ?_⟩
  · show (if -(2 ^ (8 * w - 1) : Int) ≤ n ∧ n ≤ 2 ^ (8 * w - 1) - 1 then
        (Except.ok (natToLE w ((n % (2 ^ (8 * w) : Int)).toNat)) : Except PyErr (List Nat))
      else .error .structError) = _
    rw [if_pos ⟨h0, h1⟩]
  · rw [unpack_pack_signed w hw n h0 h1]
    rfl

theorem struct_roundtrip_unsigned (w : Nat) (n : Int)
    (h0 : 0 ≤ n) (h1 : n ≤ (2 ^ (8 * w) : Int) - 1) :
    ∃ bs, packInt w false n = .ok bs ∧ bs.length = w ∧
      (unpackInt w false bs).map PyValue.int = .ok (.int n) := by
  refine ⟨natToLE w n.toNat, ?_, natToLE_length _ _, ?_⟩
  · show (if 0 ≤ n ∧ n ≤ (2 ^ (8 * w) : Int) - 1 then
        (Except.ok (natToLE w n.toNat) : Except PyErr (List Nat))
      else .error .structError) = _
    rw [if_pos ⟨h0, h1⟩]
  · rw [unpack_pack_unsigned w n h0 h1]
    rfl

/-- C1: for every built-in codec except the object-reference codec
(`int8` ... `uint64`, `bool`, `float`) and every value `v` representable
by that codec, `deserialize (serialize v) = v`, and `serialize v`
produces a byte string of length exactly `get_length ()`. -/
theorem c1_builtin_codec_roundtrip :
    ∀ nm kind, (nm, kind) ∈ codecs → ∀ fmt, kind = CodecKind.structC fmt →
    ∀ v, representable fmt v →
    ∃ bs, StructCodec.serialize fmt v = .ok bs ∧
      bs.length = StructCodec.get_length fmt ∧
      StructCodec.deserialize fmt bs = .ok v := by
  intro nm kind hmem fmt hkind v hrep
  subst hkind
  cases fmt <;> cases v <;> simp only [representable] at hrep <;> try exact hrep.elim
  case fmt_b.int n =>
    exact struct_roundtrip_signed 1 (by norm_num) n (by exact_mod_cast hrep.1) (by exact_mod_cast hrep.2)
  case fmt_B.int n =>
    exact struct_roundtrip_unsigned 1 n hrep.1 (by exact_mod_cast hrep.2)
  case fmt_h.int n =>
    exact struct_roundtrip_signed 2 (by norm_num) n (by exact_mod_cast hrep.1) (by exact_mod_cast hrep.2)
  case fmt_H.int n =>
    exact struct_roundtrip_unsigned 2 n hrep.1 (by exact_mod_cast hrep.2)
  case fmt_i.int n =>
    exact struct_roundtrip_signed 4 (by norm_num) n (by exact_mod_cast hrep.1) (by exact_mod_cast hrep.2)
  case fmt_I.int n =>
    exact struct_roundtrip_unsigned 4 n hrep.1 (by exact_mod_cast hrep.2)
  case fmt_q.int n =>
    exact struct_roundtrip_signed 8 (by norm_num) n (by exact_mod_cast hrep.1) (by exact_mod_cast hrep.2)
  case fmt_Q.int n =>
    exact struct_roundtrip_unsigned 8 n hrep.1 (by exact_mod_cast hrep.2)
  case fmt_bool.bool b =>
    cases b <;> exact ⟨_, rfl, rfl, rfl⟩
  case fmt_f.float bits =>
    refine ⟨natToLE 4 bits, ?_, natToLE_length _ _, ?_⟩
    · show (if bits < 2 ^ 32 then (Except.ok (natToLE 4 bits) : Except PyErr (List Nat))
        else .error .structError) = _
      rw [if_pos hrep]
    · show (if (natToLE 4 bits).length = 4 then
          (Except.ok (PyValue.float (leToNat (natToLE 4 bits))) : Except PyErr PyValue)
        else .error .structError) = _
      rw [if_pos (natToLE_length _ _), leToNat_natToLE,
        Nat.mod_eq_of_lt (by norm_num at hrep ⊢; omega)]

/-- Witness for C1 at the `uint32` codec and the value `3`. -/
theorem c1_builtin_codec_roundtrip_witness :
    ∃ bs, StructCodec.serialize .fmt_I (.int 3) = .ok bs ∧
      bs.length = StructCodec.get_length .fmt_I ∧
      StructCodec.deserialize .fmt_I bs = .ok (.int 3) :=
  c1_builtin_codec_roundtrip "uint32" (.structC .fmt_I) (by decide) .fmt_I rfl
    (.int 3) (by constructor <;> decide)

/-- Association-list lookup, modelling Python `dict` indexing. -/
def alookup {κ α : Type} [DecidableEq κ] : List (κ × α) → κ → Option α
  | [], _ => none
  | p :: l, k => if k = p.1 then some p.2 else alookup l k

/-- Association-list insert-or-replace, modelling Python `dict`
assignment. -/
def aset {κ α : Type} [DecidableEq κ] : List (κ × α) → κ → α → List (κ × α)
  | [], k, v => [(k, v)]
  | p :: l, k, v => if k = p.1 then (k, v) :: l else p :: aset l k v

/-- Association-list removal of the (first) binding of a key, modelling
Python `dict.pop` on a present key. -/
def adel {κ α : Type} [DecidableEq κ] : List (κ × α) → κ → List (κ × α)
  | [], _ => []
  | p :: l, k => if k = p.1 then l else p :: adel l k

def keysOf {κ α : Type} (l : List (κ × α)) : List κ := l.map Prod.fst

/-- The keys of an association list are pairwise distinct (always true
of a Python `dict`). -/
def NodupKeys {κ α : Type} (l : List (κ × α)) : Prop := (keysOf l).Nodup

theorem alookup_aset {κ α : Type} [DecidableEq κ] (l : List (κ × α)) (k k' : κ) (v : α) :
    alookup (aset l k v) k' = if k' = k then some v else alookup l k' := by
  induction l with
  | nil => simp [aset, alookup]
  | cons p l ih =>
    by_cases hk : k = p.1
    · subst hk
      by_cases hk' : k' = p.1 <;> simp [aset, alookup, hk']
    · by_cases hk' : k' = k
      · subst hk'
        simp [aset, hk, alookup, ih, if_neg hk]
      · simp only [aset, if_neg hk, alookup, ih, if_neg hk']

theorem alookup_adel_ne {κ α : Type} [DecidableEq κ] (l : List (κ × α)) (k k' : κ)
    (h : k' ≠ k) : alookup (adel l k) k' = alookup l k' := by
  induction l with
  | nil => simp [adel]
  | cons p l ih =>
    by_cases hk : k = p.1
    · subst hk
      simp [adel, alookup, if_neg h]
    · by_cases hk' : k' = p.1 <;> simp [adel, alookup, if_neg hk, hk', ih]

theorem alookup_eq_none_of_not_mem {κ α : Type} [DecidableEq κ] (l : List (κ × α)) (k : κ)
    (h : k ∉ keysOf l) : alookup l k = none := by
  induction l with
  | nil => rfl
  | cons p l ih =>
    simp only [keysOf, List.map_cons, List.mem_cons, not_or] at h
    rw [alookup, if_neg h.1]
    exact ih h.2

theorem mem_keysOf_of_alookup {κ α : Type} [DecidableEq κ] (l : List (κ × α)) (k : κ) (v : α)
    (h : alookup l k = some v) : k ∈ keysOf l := by
  induction l with
  | nil => simp [alookup] at h
  | cons p l ih =>
    rw [alookup] at h
    by_cases hk : k = p.1
    · simp [keysOf, hk]
    · rw [if_neg hk] at h
      simp only [keysOf, List.map_cons, List.mem_cons]
      exact .inr (ih h)

theorem not_mem_keysOf_adel {κ α : Type} [DecidableEq κ] (l : List (κ × α)) (k : κ)
    (h : NodupKeys l) : k ∉ keysOf (adel l k) := by
  induction l with
  | nil => simp [adel, keysOf]
  | cons p l ih =>
    simp only [NodupKeys, keysOf, List.map_cons, List.nodup_cons] at h
    by_cases hk : k = p.1
    · subst hk
      rw [adel, if_pos rfl]
      exact h.1
    · rw [adel, if_neg hk]
      simp only [keysOf, List.map_cons, List.mem_cons, not_or]
      exact ⟨hk, ih h.2⟩

theorem alookup_adel_self {κ α : Type} [DecidableEq κ] (l : List (κ × α)) (k : κ)
    (h : NodupKeys l) : alookup (adel l k) k = none :=
  alookup_eq_none_of_not_mem _ _ (not_mem_keysOf_adel l k h)

theorem keysOf_adel_sublist {κ α : Type} [DecidableEq κ] (l : List (κ × α)) (k : κ) :
    List.Sublist (keysOf (adel l k)) (keysOf l) := by
  induction l with
  | nil => simp [adel, keysOf]
  | cons p l ih =>
    by_cases hk : k = p.1
    · rw [adel, if_pos hk]
      exact List.Sublist.cons _ (List.Sublist.refl _)
    · rw [adel, if_neg hk]
      exact List.Sublist.cons₂ _ ih

theorem nodupKeys_adel {κ α : Type} [DecidableEq κ] (l : List (κ × α)) (k : κ)
    (h : NodupKeys l) : NodupKeys (adel l k) :=
  (keysOf_adel_sublist l k).nodup h

theorem mem_keysOf_aset {κ α : Type} [DecidableEq κ] (l : List (κ × α)) (k k' : κ) (v : α)
    (h : k' ∈ keysOf (aset l k v)) : k' = k ∨ k' ∈ keysOf l := by
  induction l with
  | nil => simpa [aset, keysOf] using h
  | cons p l ih =>
    by_cases hk : k = p.1
    · rw [aset, if_pos hk] at h
      simp only [keysOf, List.map_cons, List.mem_cons] at h ⊢
      rcases h with h | h
      · exact .inl h
      · exact .inr (.inr h)
    · rw [aset, if_neg hk] at h
      simp only [keysOf, List.map_cons, List.mem_cons] at h ⊢
      rcases h with h | h
      · exact .inr (.inl h)
      · rcases ih h with h | h
        · exact .inl h
        · exact .inr (.inr h)

theorem nodupKeys_aset {κ α : Type} [DecidableEq κ] (l : List (κ × α)) (k : κ) (v : α)
    (h : NodupKeys l) : NodupKeys (aset l k v) := by
  induction l with
  | nil => simp [aset, NodupKeys, keysOf]
  | cons p l ih =>
    simp only [NodupKeys, keysOf, List.map_cons, List.nodup_cons] at h
    by_cases hk : k = p.1
    · rw [aset, if_pos hk]
      simp only [NodupKeys, keysOf, List.map_cons, List.nodup_cons]
      exact ⟨hk ▸ h.1, h.2⟩
    · rw [aset, if_neg hk]
      simp only [NodupKeys, keysOf, List.map_cons, List.nodup_cons]
      refine ⟨fun hmem => ?_, ih h.2⟩
      rcases mem_keysOf_aset l k p.1 v hmem with he | he
      · exact hk he.symm
      · exact h.1 he

/-- A `RemoteAttribute` descriptor: attribute handle, sub-interface
handle and name, and the two magic flags computed from the
`"fibre.Property<...>"` naming convention. -/
structure RemoteAttribute where
  attr_handle : Nat
  intf_handle : Nat
  intf_name : Option String
  magic_getter : Bool
  magic_setter : Bool
  deriving DecidableEq, Repr

/-- A `RemoteFunction` descriptor: function handle and the ordered
`(arg_name, codec_name, codec)` input and output lists produced by
`decode_arg_list`. -/
structure RemoteFunction where
  func_handle : Nat
  inputs : List (String × String × CodecKind)
  outputs : List (String × String × CodecKind)
  deriving DecidableEq, Repr

/-- A member installed on an interface type via `setattr`. -/
inductive Member where
  | attr (a : RemoteAttribute)
  | func (f : RemoteFunction)
  deriving DecidableEq, Repr

/-- The state of a dynamically created interface type (the Python class
returned by `type(name, (RemoteObject,), {'_handle': ..., '_refcount': 0})`,
whose `_refcount` and member table are mutated in place).  The cache in
`LibFibreState.interfaces` aliases this class object, so the model keeps
the class state in the cache entry. -/
structure PyIntf where
  name : String
  handle : Nat
  refcount : Int
  members : List (String × Member)
  deriving DecidableEq, Repr

/-- The registries of a `LibFibre` instance that the claims concern:
`interfaces` (key: interface handle, value: python class) and
`_objects` (key: object handle, value: proxy instance). -/
structure LibFibreState where
  interfaces : List (Nat × PyIntf)
  objects : List (Nat × RemoteObject)
  deriving DecidableEq, Repr

/-- `LibFibre._load_py_intf`: return the cached interface type for the
handle, or synthesize a new one (default name
`anonymous_interface_<handle>`, refcount 0) and cache it.  The
subscription to interface events is a native call with no further local
effect and is not tracked. -/
def load_py_intf (s : LibFibreState) (name : Option String) (intf_handle : Nat) :
    PyIntf × LibFibreState :=
  match alookup s.interfaces intf_handle with
  | some i => (i, s)
  | none =>
    let nm := match name with
      | some n => n
      | none => "anonymous_interface_" ++ toString intf_handle
    let i : PyIntf := { name := nm, handle := intf_handle, refcount := 0, members := [] }
    (i, { s with interfaces := aset s.interfaces intf_handle i })

/-- `LibFibre._construct_object`: resolve/create the interface type,
assert the object handle is not yet registered, then instantiate the
proxy — `RemoteObject.__init__` increments the class refcount — and
register it. -/
def construct_object (s : LibFibreState) (obj intf : Nat) (name : Option String) :
    Except PyErr LibFibreState :=
  let li := load_py_intf s name intf
  if (alookup li.2.objects obj).isSome then .error .assertionError
  else
    let s2 := { li.2 with
      interfaces := aset li.2.interfaces intf { li.1 with refcount := li.1.refcount + 1 } }
    .ok { s2 with
      objects := aset s2.objects obj
        { cls := intf, libfibre := true, obj_handle := some obj, on_lost := true } }

/-- `LibFibre._destroy_object` followed by `RemoteObject._destroy`: pop
the proxy from `_objects` (`KeyError` if absent), clear its `_libfibre`,
`_obj_handle` and `_on_lost` fields, decrement the class refcount and
evict the class from `interfaces` when it reaches zero
(`interfaces.pop` raises `KeyError` if the handle is not cached).
Returns the new state together with the detached proxy (on whose
captured `_on_lost` future `set_result(True)` is then called). -/
def destroy_object (s : LibFibreState) (obj : Nat) :
    Except PyErr (LibFibreState × RemoteObject) :=
  match alookup s.objects obj with
  | none => .error .keyError
  | some po =>
    let s1 := { s with objects := adel s.objects obj }
    let dead : RemoteObject := { po with libfibre := false, obj_handle := none, on_lost := false }
    match alookup s1.interfaces po.cls with
    | none => .error .keyError
    | some pi =>
      if pi.refcount - 1 = 0 then
        .ok ({ s1 with interfaces := adel s1.interfaces po.cls }, dead)
      else
        .ok ({ s1 with interfaces := aset s1.interfaces po.cls { pi with refcount := pi.refcount - 1 } }, dead)

/-- The native object-lifecycle notifications driving the registries. -/
inductive LifecycleEvent where
  | construct (obj intf : Nat) (name : Option String)
  | destroy (obj : Nat)

/-- One reactor-thread lifecycle callback, run to completion. -/
def lifecycle_step (s : LibFibreState) : LifecycleEvent → Except PyErr LibFibreState
  | .construct o i n => construct_object s o i n
  | .destroy o => (destroy_object s o).map Prod.fst

/-- Number of live proxies whose class is the interface with handle `h`. -/
def countCls (objs : List (Nat × RemoteObject)) (h : Nat) : Nat :=
  (objs.filter (fun p => p.2.cls == h)).length

/-- The registry invariants of §3 of the design document: distinct keys,
each cached interface type records its own handle, its refcount equals
the number of live proxies of that type and is strictly positive, and
every live proxy's class is cached. -/
structure WF (s : LibFibreState) : Prop where
  nodup_intf : NodupKeys s.interfaces
  nodup_obj : NodupKeys s.objects
  handle_eq : ∀ h i, alookup s.interfaces h = some i → i.handle = h
  rc_count : ∀ h i, alookup s.interfaces h = some i → i.refcount = (countCls s.objects h : Int)
  rc_pos : ∀ h i, alookup s.interfaces h = some i → 0 < i.refcount
  cls_cached : ∀ o po, alookup s.objects o = some po → (alookup s.interfaces po.cls).isSome = true

theorem alookup_of_mem {κ α : Type} [DecidableEq κ] (l : List (κ × α)) (p : κ × α)
    (hnd : NodupKeys l) (hm : p ∈ l) : alookup l p.1 = some p.2 := by
  induction l with
  | nil => cases hm
  | cons q l ih =>
    simp only [NodupKeys, keysOf, List.map_cons, List.nodup_cons] at hnd
    rcases List.mem_cons.mp hm with he | hm2
    · subst he
      rw [alookup, if_pos rfl]
    · rw [alookup, if_neg]
      · exact ih hnd.2 hm2
      · intro hpq
        exact hnd.1 (hpq ▸ List.mem_map_of_mem Prod.fst hm2)

theorem countCls_aset_fresh (objs : List (Nat × RemoteObject)) (k : Nat) (po : RemoteObject)
    (c : Nat) (h : alookup objs k = none) :
    countCls (aset objs k po) c = countCls objs c + (if po.cls = c then 1 else 0) := by
  induction objs with
  | nil =>
    simp only [aset, countCls, List.filter]
    by_cases hc : po.cls = c
    · simp [hc]
    · simp [hc, (by simpa using hc : (po.cls == c) = false)]
  | cons p l ih =>
    rw [alookup] at h
    by_cases hk : k = p.1
    · rw [if_pos hk] at h
      cases h
    · rw [if_neg hk] at h
      rw [aset, if_neg hk]
      simp only [countCls, List.filter] at ih ⊢
      cases hpc : (p.2.cls == c) <;> simp only [List.length_cons] <;> rw [ih h] <;> omega

theorem countCls_adel (objs : List (Nat × RemoteObject)) (k : Nat) (po : RemoteObject)
    (c : Nat) (h : alookup objs k = some po) :
    countCls objs c = countCls (adel objs k) c + (if po.cls = c then 1 else 0) := by
  induction objs with
  | nil => cases h
  | cons p l ih =>
    rw [alookup] at h
    by_cases hk : k = p.1
    · rw [if_pos hk] at h
      injection h with h
      rw [adel, if_pos hk]
      simp only [countCls, List.filter]
      by_cases hc : po.cls = c
      · simp [h, hc]
      · simp [h, (by simpa using hc : (po.cls == c) = false), hc]
    · rw [if_neg hk] at h
      rw [adel, if_neg hk]
      simp only [countCls, List.filter] at ih ⊢
      cases hpc : (p.2.cls == c) <;> simp only [List.length_cons] <;> rw [ih h] <;> omega

theorem countCls_eq_zero_of_uncached (s : LibFibreState) (c : Nat) (hwf : WF s)
    (h : alookup s.interfaces c = none) : countCls s.objects c = 0 := by
  by_contra hne
  have hpos : 0 < countCls s.objects c := Nat.pos_of_ne_zero hne
  unfold countCls at hpos
  obtain ⟨p, hp⟩ := List.exists_mem_of_length_pos hpos
  have hp2 := List.mem_filter.mp hp
  have hcls : p.2.cls = c := by simpa using hp2.2
  have hl := alookup_of_mem s.objects p hwf.nodup_obj hp2.1
  have := hwf.cls_cached p.1 p.2 hl
  rw [hcls, h] at this
  cases this

theorem countCls_pos_of_lookup (objs : List (Nat × RemoteObject)) (o : Nat)
    (po : RemoteObject) (c : Nat) (h : alookup objs o = some po) (hc : po.cls = c) :
    0 < countCls objs c := by
  induction objs with
  | nil => cases h
  | cons p l ih =>
    rw [alookup] at h
    by_cases hk : o = p.1
    · rw [if_pos hk] at h
      injection h with h
      subst h
      unfold countCls
      simp [List.filter, hc]
    · rw [if_neg hk] at h
      have := ih h
      unfold countCls at this ⊢
      simp only [List.filter]
      cases hpc : (p.2.cls == c) <;> simp only [List.length_cons] <;> omega

theorem aset_aset {κ α : Type} [DecidableEq κ] (l : List (κ × α)) (k : κ) (v v' : α) :
    aset (aset l k v) k v' = aset l k v' := by
  induction l with
  | nil => simp [aset]
  | cons p l ih =>
    by_cases hk : k = p.1
    · simp [aset, hk]
    · simp [aset, hk, ih]

theorem wf_after_insert (s : LibFibreState) (o i : Nat) (iNew : PyIntf) (hwf : WF s)
    (hhandle : iNew.handle = i)
    (hrc : iNew.refcount = (countCls s.objects i : Int) + 1)
    (hobj : alookup s.objects o = none) :
    WF ⟨aset s.interfaces i iNew,
        aset s.objects o { cls := i, libfibre := true, obj_handle := some o, on_lost := true }⟩ := by
  have hcnt : ∀ c, countCls (aset s.objects o
      { cls := i, libfibre := true, obj_handle := some o, on_lost := true }) c =
      countCls s.objects c + if i = c then 1 else 0 := fun c =>
    countCls_aset_fresh s.objects o _ c hobj
  refine ⟨nodupKeys_aset _ _ _ hwf.nodup_intf, nodupKeys_aset _ _ _ hwf.nodup_obj, ?_, ?_, ?_, ?_⟩
  · intro h i' hl
    simp only [alookup_aset] at hl
    by_cases hh : h = i
    · rw [if_pos hh] at hl
      injection hl with hl
      rw [← hl, hhandle, hh]
    · rw [if_neg hh] at hl
      exact hwf.handle_eq h i' hl
  · intro h i' hl
    simp only [alookup_aset] at hl
    rw [hcnt h]
    by_cases hh : h = i
    · rw [if_pos hh] at hl
      injection hl with hl
      subst hh
      rw [← hl, hrc, if_pos rfl]
      push_cast
      ring
    · rw [if_neg hh] at hl
      rw [if_neg (fun he => hh he.symm), hwf.rc_count h i' hl]
      simp
  · intro h i' hl
    simp only [alookup_aset] at hl
    by_cases hh : h = i
    · rw [if_pos hh] at hl
      injection hl with hl
      rw [← hl, hrc]
      have h0 : (0 : Int) ≤ (countCls s.objects i : Int) := Int.natCast_nonneg _
      omega
    · rw [if_neg hh] at hl
      exact hwf.rc_pos h i' hl
  · intro o' po' hl
    simp only [alookup_aset] at hl ⊢
    by_cases ho : o' = o
    · rw [if_pos ho] at hl
      injection hl with hl
      rw [← hl]
      simp
    · rw [if_neg ho] at hl
      have := hwf.cls_cached o' po' hl
      by_cases hc : po'.cls = i
      · rw [if_pos hc]
        rfl
      · rw [if_neg hc]
        exact this

theorem wf_construct (s : LibFibreState) (o i : Nat) (n : Option String) (s' : LibFibreState)
    (hwf : WF s) (hstep : construct_object s o i n = .ok s') : WF s' := by
  rcases hcache : alookup s.interfaces i with _ | pi
  · simp only [construct_object, load_py_intf, hcache] at hstep
    split at hstep
    · cases hstep
    case isFalse hobj =>
      injection hstep with hstep
      subst hstep
      have hobj' : alookup s.objects o = none := by
        cases halo : alookup s.objects o with
        | none => rfl
        | some _ => rw [halo] at hobj; simp at hobj
      have hzero : countCls s.objects i = 0 := countCls_eq_zero_of_uncached s i hwf hcache
      rw [aset_aset]
      exact wf_after_insert s o i _ hwf rfl (by rw [hzero]; rfl) hobj'
  · simp only [construct_object, load_py_intf, hcache] at hstep
    split at hstep
    · cases hstep
    case isFalse hobj =>
      injection hstep with hstep
      subst hstep
      have hobj' : alookup s.objects o = none := by
        cases halo : alookup s.objects o with
        | none => rfl
        | some _ => rw [halo] at hobj; simp at hobj
      refine wf_after_insert s o i _ hwf (hwf.handle_eq i pi hcache) ?_ hobj'
      show pi.refcount + 1 = (countCls s.objects i : Int) + 1
      rw [hwf.rc_count i pi hcache]

theorem wf_destroy (s : LibFibreState) (o : Nat) (s' : LibFibreState) (dead : RemoteObject)
    (hwf : WF s) (hstep : destroy_object s o = .ok (s', dead)) : WF s' := by
  rcases hobj0 : alookup s.objects o with _ | po
  · rw [destroy_object, hobj0] at hstep
    cases hstep
  rcases hpi : alookup s.interfaces po.cls with _ | pi
  · rw [destroy_object, hobj0] at hstep
    simp only [hpi] at hstep
    cases hstep
  rw [destroy_object, hobj0] at hstep
  simp only [hpi] at hstep
  have hdel := fun c => countCls_adel s.objects o po c hobj0
  have hrc := hwf.rc_count po.cls pi hpi
  have hnodup_obj' := nodupKeys_adel s.objects o hwf.nodup_obj
  by_cases hz : pi.refcount - 1 = 0
  · rw [if_pos hz] at hstep
    injection hstep with hstep
    injection hstep with hstep hdead
    subst hstep
    have hcount1 : countCls s.objects po.cls = 1 := by
      have := hwf.rc_pos po.cls pi hpi
      have h1 := hdel po.cls
      rw [if_pos rfl] at h1
      omega
    refine ⟨nodupKeys_adel _ _ hwf.nodup_intf, hnodup_obj', ?_, ?_, ?_, ?_⟩
    · intro h i' hl
      by_cases hh : h = po.cls
      · rw [hh, alookup_adel_self _ _ hwf.nodup_intf] at hl
        cases hl
      · rw [alookup_adel_ne _ _ _ hh] at hl
        exact hwf.handle_eq h i' hl
    · intro h i' hl
      by_cases hh : h = po.cls
      · rw [hh, alookup_adel_self _ _ hwf.nodup_intf] at hl
        cases hl
      · rw [alookup_adel_ne _ _ _ hh] at hl
        have h1 := hdel h
        rw [if_neg (fun he => hh he.symm)] at h1
        rw [hwf.rc_count h i' hl]
        show ((countCls s.objects h : Nat) : Int) = ((countCls (adel s.objects o) h : Nat) : Int)
        omega
    · intro h i' hl
      by_cases hh : h = po.cls
      · rw [hh, alookup_adel_self _ _ hwf.nodup_intf] at hl
        cases hl
      · rw [alookup_adel_ne _ _ _ hh] at hl
        exact hwf.rc_pos h i' hl
    · intro o' po' hl
      by_cases ho : o' = o
      · rw [ho, alookup_adel_self _ _ hwf.nodup_obj] at hl
        cases hl
      · rw [alookup_adel_ne _ _ _ ho] at hl
        have hcached := hwf.cls_cached o' po' hl
        by_cases hc : po'.cls = po.cls
        · exfalso
          have hpos : 0 < countCls (adel s.objects o) po.cls := by
            refine countCls_pos_of_lookup (adel s.objects o) o' po' po.cls ?_ hc
            rw [alookup_adel_ne _ _ _ ho]
            exact hl
          have h1 := hdel po.cls
          rw [if_pos rfl] at h1
          omega
        · rw [alookup_adel_ne _ _ _ hc]
          exact hcached
  · rw [if_neg hz] at hstep
    injection hstep with hstep
    injection hstep with hstep hdead
    subst hstep
    refine ⟨nodupKeys_aset _ _ _ hwf.nodup_intf, hnodup_obj', ?_, ?_, ?_, ?_⟩
    · intro h i' hl
      simp only [alookup_aset] at hl
      by_cases hh : h = po.cls
      · rw [if_pos hh] at hl
        injection hl with hl
        rw [← hl, hh]
        exact hwf.handle_eq po.cls pi hpi
      · rw [if_neg hh] at hl
        exact hwf.handle_eq h i' hl
    · intro h i' hl
      simp only [alookup_aset] at hl
      by_cases hh : h = po.cls
      · rw [if_pos hh] at hl
        injection hl with hl
        subst hh
        have h1 := hdel po.cls
        rw [if_pos rfl] at h1
        rw [← hl]
        show pi.refcount - 1 = ((countCls (adel s.objects o) po.cls : Nat) : Int)
        omega
      · rw [if_neg hh] at hl
        have h1 := hdel h
        rw [if_neg (fun he => hh he.symm)] at h1
        rw [hwf.rc_count h i' hl]
        show ((countCls s.objects h : Nat) : Int) = ((countCls (adel s.objects o) h : Nat) : Int)
        omega
    · intro h i' hl
      simp only [alookup_aset] at hl
      by_cases hh : h = po.cls
      · rw [if_pos hh] at hl
        injection hl with hl
        have hposc := hwf.rc_pos po.cls pi hpi
        rw [← hl]
        show (0 : Int) < pi.refcount - 1
        have h1 := hdel po.cls
        rw [if_pos rfl] at h1
        omega
      · rw [if_neg hh] at hl
        exact hwf.rc_pos h i' hl
    · intro o' po' hl
      by_cases ho : o' = o
      · rw [ho, alookup_adel_self _ _ hwf.nodup_obj] at hl
        cases hl
      · rw [alookup_adel_ne _ _ _ ho] at hl
        have hcached := hwf.cls_cached o' po' hl
        simp only [alookup_aset]
        by_cases hc : po'.cls = po.cls
        · rw [if_pos hc]
          rfl
        · rw [if_neg hc]
          exact hcached

theorem wf_lifecycle_step (s : LibFibreState) (e : LifecycleEvent) (s' : LibFibreState)
    (hwf : WF s) (hstep : lifecycle_step s e = .ok s') : WF s' := by
  cases e with
  | construct o i n => exact wf_construct s o i n s' hwf hstep
  | destroy o =>
    simp only [lifecycle_step] at hstep
    rcases hd : destroy_object s o with _ | p
    · rw [hd] at hstep
      cases hstep
    · rw [hd] at hstep
      injection hstep with hstep
      subst hstep
      exact wf_destroy s o p.1 p.2 hwf hd

theorem wf_nil : WF ⟨[], []⟩ := by
  refine ⟨?_, ?_, ?_, ?_, ?_, ?_⟩
  · simp [NodupKeys, keysOf]
  · simp [NodupKeys, keysOf]
  · intro a b hl
    simp [alookup] at hl
  · intro a b hl
    simp [alookup] at hl
  · intro a b hl
    simp [alookup] at hl
  · intro a b hl
    simp [alookup] at hl

/-- C5: at every instant (between lifecycle callbacks), each cached
interface type's refcount equals the number of live object proxies
referencing it, is strictly positive (so never negative and never a
cached zero); and in the concrete scenario, constructing objects 1 and 2
under interface handle 7 yields one shared interface type with refcount
2, and destroying both evicts handle 7 from the cache. -/
theorem c5_refcount_invariant_and_lifecycle :
    (∀ s e s', WF s → lifecycle_step s e = .ok s' → WF s') ∧
    (∃ s1 s2 s3 s4,
      lifecycle_step ⟨[], []⟩ (.construct 1 7 Option.none) = .ok s1 ∧
      lifecycle_step s1 (.construct 2 7 Option.none) = .ok s2 ∧
      (∃ i, alookup s2.interfaces 7 = some i ∧ i.refcount = 2) ∧
      lifecycle_step s2 (.destroy 1) = .ok s3 ∧
      lifecycle_step s3 (.destroy 2) = .ok s4 ∧
      alookup s4.interfaces 7 = Option.none) := by
  constructor
  · exact wf_lifecycle_step
  · exact ⟨_, _, _, _, rfl, rfl, ⟨_, rfl, rfl⟩, rfl, rfl, rfl⟩

/-- Witness for C5: one step of the invariant-preservation part at a
concrete input. -/
theorem c5_refcount_invariant_and_lifecycle_witness :
    ∃ s', lifecycle_step ⟨[], []⟩ (.construct 1 7 Option.none) = .ok s' ∧ WF s' :=
  ⟨_, rfl, c5_refcount_invariant_and_lifecycle.1 ⟨[], []⟩ (.construct 1 7 Option.none) _
    wf_nil rfl⟩

/-- The Python type name of a value (`type(value).__name__`), as used in
the `ObjectPtrCodec.serialize` error message. -/
def PyValue.typeName : PyValue → String
  | .none => "NoneType"
  | .int _ => "int"
  | .bool _ => "bool"
  | .float _ => "float"
  | .obj _ => "RemoteObject"
  | .tuple _ => "tuple"

/-- `ObjectPtrCodec.get_length`: `struct.calcsize("P")`, the native
pointer width — 8 on the 64-bit platforms this model fixes. -/
def ObjectPtrCodec.get_length : Nat := 8

/-- `ObjectPtrCodec.serialize`: `None` packs as a zero handle; a
`RemoteObject` packs its `_obj_handle` (a destroyed proxy has
`_obj_handle = None`, which `struct.pack("P", ...)` rejects with
`struct.error`); anything else raises a `TypeError`. -/
def ObjectPtrCodec.serialize (v : PyValue) : Except PyErr (List Nat) :=
  match v with
  | .none => .ok (natToLE 8 0)
  | .obj r =>
    match r.obj_handle with
    | some h => if h < 2 ^ 64 then .ok (natToLE 8 h) else .error .structError
    | Option.none => .error .structError
  | _ => .error (.typeError ("Expected value of type RemoteObject or None but got '" ++
      v.typeName ++
      "'. An example for a RemoteObject is this expression: odrv0.axis0.controller._input_pos_property"))

/-- `ObjectPtrCodec.deserialize`: unpack a handle; handle 0 decodes to
`None`, otherwise the handle is looked up in `libfibre._objects`
(raising `KeyError` when absent). -/
def ObjectPtrCodec.deserialize (objs : List (Nat × RemoteObject)) (buf : List Nat) :
    Except PyErr PyValue :=
  if buf.length = 8 then
    let handle := leToNat buf
    if handle = 0 then .ok .none
    else
      match alookup objs handle with
      | some r => .ok (.obj r)
      | Option.none => .error .keyError
  else .error .structError

def codec_get_length : CodecKind → Nat
  | .structC fmt => StructCodec.get_length fmt
  | .objectPtr => ObjectPtrCodec.get_length

def codec_serialize : CodecKind → PyValue → Except PyErr (List Nat)
  | .structC fmt, v => StructCodec.serialize fmt v
  | .objectPtr, v => ObjectPtrCodec.serialize v

def codec_deserialize (objs : List (Nat × RemoteObject)) :
    CodecKind → List Nat → Except PyErr PyValue
  | .structC fmt, buf => StructCodec.deserialize fmt buf
  | .objectPtr, buf => ObjectPtrCodec.deserialize objs buf

/-- Model of Python `str.startswith` on explicit character lists
(`String.startsWith` itself does not reduce in the kernel). -/
def charsStartWith : List Char → List Char → Bool
  | _, [] => true
  | [], _ :: _ => false
  | c :: s, d :: p => c == d && charsStartWith s p

def pyStartsWith (s p : String) : Bool := charsStartWith s.data p.data

/-- Model of Python `str.endswith`. -/
def pyEndsWith (s p : String) : Bool := charsStartWith s.data.reverse p.data.reverse

/-- `LibFibre._on_attribute_added`: look up the interface class for the
notification context, compute the magic getter/setter flags from the
`"fibre.Property<...>"` naming convention, install the attribute, and —
when either flag is set — additionally install the raw attribute under
`_<name>_property`. -/
def LibFibre.on_attribute_added (s : LibFibreState) (ctx attr subintf : Nat)
    (name : String) (subintf_name : Option String) : Except PyErr LibFibreState :=
  match alookup s.interfaces ctx with
  | Option.none => .error .keyError
  | some intf =>
    let magic_getter := match subintf_name with
      | some sn => pyStartsWith sn "fibre.Property<" && pyEndsWith sn ">"
      | Option.none => false
    let magic_setter := match subintf_name with
      | some sn => pyStartsWith sn "fibre.Property<readwrite " && pyEndsWith sn ">"
      | Option.none => false
    let m1 := aset intf.members name
      (Member.attr ⟨attr, subintf, subintf_name, magic_getter, magic_setter⟩)
    let m2 := if magic_getter || magic_setter then
        aset m1 ("_" ++ name ++ "_property")
          (Member.attr ⟨attr, subintf, subintf_name, false, false⟩)
      else m1
    .ok { s with interfaces := aset s.interfaces ctx { intf with members := m2 } }

/-- `RemoteAttribute._get_obj`: load (or create) the python type for the
attribute's sub-interface, issue the native `libfibre_get_attribute`
call — whose outcome `(status, obj_handle)` is an input to the model —
raise the status exception on failure, and look the returned handle up
in the object registry. -/
def RemoteAttribute.get_obj (a : RemoteAttribute) (s : LibFibreState) (inst : RemoteObject)
    (status : Int) (obj_handle : Nat) : LibFibreState × Except PyErr RemoteObject :=
  let li := load_py_intf s a.intf_name a.intf_handle
  match get_exception status with
  | some e => (li.2, .error e)
  | Option.none =>
    match alookup li.2.objects obj_handle with
    | some r => (li.2, .ok r)
    | Option.none => (li.2, .error .keyError)

/-- Result of `RemoteAttribute.__get__`: with a magic getter the access
returns `self._get_obj(instance).read()` (a remote call on the property
object), otherwise the property object itself. -/
inductive AttrReadResult where
  | readOf (o : RemoteObject)
  | objItself (o : RemoteObject)
  deriving DecidableEq, Repr

def RemoteAttribute.get (a : RemoteAttribute) (s : LibFibreState) (inst : RemoteObject)
    (status : Int) (obj_handle : Nat) : LibFibreState × Except PyErr AttrReadResult :=
  let r := a.get_obj s inst status obj_handle
  match r.2 with
  | .error e => (r.1, .error e)
  | .ok o => (r.1, .ok (if a.magic_getter then .readOf o else .objItself o))

/-- Result of a successful `RemoteAttribute.__set__`: the exchange call
on the property object. -/
inductive AttrWriteResult where
  | exchangeOf (o : RemoteObject) (v : PyValue)
  deriving Repr

def RemoteAttribute.set (a : RemoteAttribute) (s : LibFibreState) (inst : RemoteObject)
    (status : Int) (obj_handle : Nat) (val : PyValue) :
    LibFibreState × Except PyErr AttrWriteResult :=
  if a.magic_setter then
    let r := a.get_obj s inst status obj_handle
    match r.2 with
    | .error e => (r.1, .error e)
    | .ok o => (r.1, .ok (.exchangeOf o val))
  else (s, .error (.exception "this attribute cannot be written to"))

/-- The state of an asyncio future created for a call. -/
inductive FutState where
  | pending
  | result (v : PyValue)
  | failure (e : PyErr)
  deriving Repr

/-- One entry of `RemoteFunction._calls`: the transmit and receive
buffers plus the future for the result (the `handle` field is only
written by the native side and is not tracked). -/
structure CallRec where
  tx_buf : List Nat
  rx_buf : List Nat
  future : Nat
  deriving Repr

/-- One invocation of the native `libfibre_start_call` entry point. -/
structure NativeStartCall where
  obj_handle : Option Nat
  func_handle : Nat
  tx_buf : List Nat
  rx_len : Nat
  call_id : Nat
  deriving DecidableEq, Repr

/-- The call-dispatcher state: the in-flight `_calls` table, the
futures created for calls, and the trace of native start-call
invocations. -/
structure DispatchState where
  calls : List (Nat × CallRec)
  futures : List (Nat × FutState)
  next_future : Nat
  native_calls : List NativeStartCall
  deriving Repr

/-- `insert_with_new_id`'s key choice: the smallest positive integer not
already used as a key (`next(x for x in count(1) if x not in keys)`). -/
def freshId (ks : List Nat) : Nat :=
  match ((List.range (ks.length + 1)).map (· + 1)).find? (fun x => !ks.contains x) with
  | some k => k
  | Option.none => 0

/-- Serialization of the argument list into one contiguous buffer:
`b''.join(self._inputs[i][2].serialize(self._libfibre, args[i]) ...)`.
Only invoked with lists of equal length. -/
def serializeArgs : List (String × String × CodecKind) → List PyValue →
    Except PyErr (List Nat)
  | [], [] => .ok []
  | inp :: inputs, a :: args =>
    match codec_serialize inp.2.2 a with
    | .error e => .error e
    | .ok bs =>
      match serializeArgs inputs args with
      | .error e => .error e
      | .ok rest => .ok (bs ++ rest)
  | _, _ => .error (.typeError "argument list length mismatch")

/-- `self._rx_size`: the sum of the output codec lengths. -/
def RemoteFunction.rx_size (f : RemoteFunction) : Nat :=
  (f.outputs.map (fun a => codec_get_length a.2.2)).sum

/-- `RemoteFunction.__call__` on the libfibre thread (the cross-thread
path re-invokes this same function on the reactor loop): arity check
(`TypeError` before anything else), argument serialization, allocation
of the future (`instance._libfibre.loop.create_future()` — an
`AttributeError` when the proxy is destroyed, since `_libfibre` is
`None`), zero-filled receive buffer, fresh call id, registration of the
call record, and the native `libfibre_start_call` invocation.  Returns
the updated dispatcher state (unchanged when an exception is raised,
since every raise precedes the first mutation) and the future id or the
exception. -/
def RemoteFunction.call (f : RemoteFunction) (inst : RemoteObject)
    (args : List PyValue) (d : DispatchState) : DispatchState × Except PyErr Nat :=
  if f.inputs.length ≠ args.length then
    (d, .error (.typeError ("expected " ++ toString f.inputs.length ++
      " arguments but have " ++ toString args.length)))
  else
    match serializeArgs f.inputs args with
    | .error e => (d, .error e)
    | .ok tx =>
      if inst.libfibre = false then
        (d, .error (.attributeError "'NoneType' object has no attribute 'loop'"))
      else
        let rx := List.replicate f.rx_size 0
        let fid := d.next_future
        let call_id := freshId (keysOf d.calls)
        ({ calls := aset d.calls call_id { tx_buf := tx, rx_buf := rx, future := fid },
           futures := aset d.futures fid .pending,
           next_future := fid + 1,
           native_calls := d.native_calls ++
             [{ obj_handle := inst.obj_handle, func_handle := f.func_handle,
                tx_buf := tx, rx_len := rx.length, call_id := call_id }] },
         .ok fid)

/-- Decoding of the output fields at their accumulated offsets:
`arg[2].deserialize(self._libfibre, call['rx_buf'][pos:(pos + arg_length)])`. -/
def decodeOutputs (objs : List (Nat × RemoteObject)) :
    List (String × String × CodecKind) → List Nat → Nat → Except PyErr (List PyValue)
  | [], _, _ => .ok []
  | arg :: rest, rx, pos =>
    let len := codec_get_length arg.2.2
    match codec_deserialize objs arg.2.2 ((rx.drop pos).take len) with
    | .error e => .error e
    | .ok v =>
      match decodeOutputs objs rest rx (pos + len) with
      | .error e => .error e
      | .ok vs => .ok (v :: vs)

/-- The value a completed call resolves to: `None` for zero outputs, the
single value for one, the tuple for several. -/
def resultOf : List PyValue → PyValue
  | [] => .none
  | [v] => v
  | vs => .tuple vs

/-- `future.set_result`: legal only on a pending future (asyncio raises
`InvalidStateError` otherwise). -/
def futSetRes (d : DispatchState) (fid : Nat) (v : PyValue) : DispatchState × Option PyErr :=
  match alookup d.futures fid with
  | some .pending => ({ d with futures := aset d.futures fid (.result v) }, Option.none)
  | _ => (d, some .invalidStateError)

/-- `future.set_exception`, with the same pending-state requirement. -/
def futSetExc (d : DispatchState) (fid : Nat) (e : PyErr) : DispatchState × Option PyErr :=
  match alookup d.futures fid with
  | some .pending => ({ d with futures := aset d.futures fid (.failure e) }, Option.none)
  | _ => (d, some .invalidStateError)

/-- `RemoteFunction._on_completed`: pop the call record for the call id
(`KeyError` when absent), then either fail the future with the status
exception, or decode the output fields in order from the receive buffer
and resolve the future.  The second component is the exception
propagating out of the callback, if any (an output decoding error
escapes after the record was already popped, leaving the future
unresolved). -/
def RemoteFunction.on_completed (f : RemoteFunction) (objs : List (Nat × RemoteObject))
    (d : DispatchState) (ctx : Nat) (status : Int) : DispatchState × Option PyErr :=
  match alookup d.calls ctx with
  | Option.none => (d, some .keyError)
  | some call =>
    let d1 := { d with calls := adel d.calls ctx }
    match get_exception status with
    | some e => futSetExc d1 call.future e
    | Option.none =>
      match decodeOutputs objs f.outputs call.rx_buf 0 with
      | .error e => (d1, some e)
      | .ok outs => futSetRes d1 call.future (resultOf outs)

/-- The `add(a: uint32, b: uint32) -> uint32` function descriptor of the
simple-call scenario. -/
def add_function : RemoteFunction :=
  { func_handle := 21,
    inputs := [("a", "uint32", .structC .fmt_I), ("b", "uint32", .structC .fmt_I)],
    outputs := [("out", "uint32", .structC .fmt_I)] }

/-- An empty dispatcher state. -/
def d0 : DispatchState := { calls := [], futures := [], next_future := 0, native_calls := [] }

/-- The live proxy `O1` of interface `H1 = 7` used in the scenarios. -/
def o1 : RemoteObject := { cls := 7, libfibre := true, obj_handle := some 5, on_lost := true }

/-- Dispatcher state after `add(O1, 3, 4)` was started. -/
def c2_d1 : DispatchState := (RemoteFunction.call add_function o1 [.int 3, .int 4] d0).1

/-- `c2_d1` after the native side has written the encoding of `7` into
the receive buffer of the in-flight call. -/
def c2_d2 : DispatchState :=
  { c2_d1 with
    calls := aset c2_d1.calls 1 ⟨natToLE 4 3 ++ natToLE 4 4, natToLE 4 7, 0⟩ }

/-- C2: calling the `add(a: uint32, b: uint32) -> uint32` descriptor
with arguments 3 and 4 dispatches a start-call whose transmit buffer is
the 8-byte little-endian concatenation of 3 and 4, and an ok completion
whose output buffer encodes 7 resolves the call's future to the single
value 7 (with the call record removed). -/
theorem c2_simple_call_scenario :
    (RemoteFunction.call add_function o1 [.int 3, .int 4] d0).2 = .ok 0 ∧
    c2_d1.native_calls = [⟨some 5, 21, natToLE 4 3 ++ natToLE 4 4, 4, 1⟩] ∧
    natToLE 4 3 ++ natToLE 4 4 = [3, 0, 0, 0, 4, 0, 0, 0] ∧
    (RemoteFunction.on_completed add_function [] c2_d2 1 kFibreOk).2 = Option.none ∧
    alookup (RemoteFunction.on_completed add_function [] c2_d2 1 kFibreOk).1.futures 0 =
      some (.result (.int 7)) ∧
    alookup (RemoteFunction.on_completed add_function [] c2_d2 1 kFibreOk).1.calls 1 =
      Option.none :=
  ⟨rfl, rfl, rfl, rfl, rfl, rfl⟩

/-- C3: an arity mismatch raises the `TypeError` before any state
mutation: the dispatcher state is returned unchanged — no call record is
created and no native start-call is issued. -/
theorem c3_arity_mismatch (f : RemoteFunction) (inst : RemoteObject)
    (args : List PyValue) (d : DispatchState) (h : f.inputs.length ≠ args.length) :
    RemoteFunction.call f inst args d =
      (d, .error (.typeError ("expected " ++ toString f.inputs.length ++
        " arguments but have " ++ toString args.length))) := by
  rw [RemoteFunction.call, if_pos h]

/-- Witness for C3: calling the two-input `add` descriptor with one
argument. -/
theorem c3_arity_mismatch_witness :
    RemoteFunction.call add_function o1 [.int 3] d0 =
      (d0, .error (.typeError "expected 2 arguments but have 1")) :=
  c3_arity_mismatch add_function o1 [.int 3] d0 (by decide)

/-- C4 (amended): for every call id with a registered call record and a
pending future, the completion handler always removes the record; on a
non-ok status it fails the future with the status exception; on an ok
status it resolves the future with the decoded outputs when decoding
succeeds, but when an output fails to decode (e.g. an unregistered
object handle) the handler raises after the pop and the future is left
pending — no resolution occurs. -/
theorem c4_completion_behaviour (f : RemoteFunction) (objs : List (Nat × RemoteObject))
    (d : DispatchState) (ctx : Nat) (status : Int) (call : CallRec)
    (hc : alookup d.calls ctx = some call)
    (hnodup : NodupKeys d.calls)
    (hfut : alookup d.futures call.future = some .pending) :
    alookup (RemoteFunction.on_completed f objs d ctx status).1.calls ctx = Option.none ∧
    (∀ e, get_exception status = some e →
      (RemoteFunction.on_completed f objs d ctx status).2 = Option.none ∧
      alookup (RemoteFunction.on_completed f objs d ctx status).1.futures call.future =
        some (.failure e)) ∧
    (get_exception status = Option.none →
      (∀ outs, decodeOutputs objs f.outputs call.rx_buf 0 = .ok outs →
        (RemoteFunction.on_completed f objs d ctx status).2 = Option.none ∧
        alookup (RemoteFunction.on_completed f objs d ctx status).1.futures call.future =
          some (.result (resultOf outs))) ∧
      (∀ e, decodeOutputs objs f.outputs call.rx_buf 0 = .error e →
        (RemoteFunction.on_completed f objs d ctx status).2 = some e ∧
        alookup (RemoteFunction.on_completed f objs d ctx status).1.futures call.future =
          some .pending)) := by
  refine ⟨?_, ?_, ?_⟩
  · rw [RemoteFunction.on_completed, hc]
    rcases hge : get_exception status with _ | e
    · rcases hdec : decodeOutputs objs f.outputs call.rx_buf 0 with e | outs
      · simp only [hge, hdec, alookup_adel_self _ _ hnodup]
      · simp only [hge, hdec, futSetRes, hfut, alookup_adel_self _ _ hnodup]
    · simp only [hge, futSetExc, hfut, alookup_adel_self _ _ hnodup]
  · intro e hge
    simp [RemoteFunction.on_completed, hc, hge, futSetExc, hfut, alookup_aset]
  · intro hge
    constructor
    · intro outs hdec
      simp [RemoteFunction.on_completed, hc, hge, hdec, futSetRes, hfut, alookup_aset]
    · intro e hdec
      simp [RemoteFunction.on_completed, hc, hge, hdec, hfut]

/-- A function descriptor whose single output is an object reference. -/
def c4_f_obj : RemoteFunction := ⟨22, [], [("out", "object_ref", .objectPtr)]⟩

/-- A dispatcher state with one in-flight call (id 1) whose receive
buffer holds the handle 1 — a handle not registered in the (empty)
object registry — and whose future (id 0) is pending. -/
def c4_d : DispatchState :=
  { calls := [(1, ⟨[], natToLE 8 1, 0⟩)],
    futures := [(0, .pending)], next_future := 1, native_calls := [] }

/-- Counterexample to C4 as stated: an ok-status completion for a
registered call record whose object-reference output holds an
unregistered handle removes the call record but never settles the
future — the handler escapes with a `KeyError`, so no resolution occurs
on this ok completion. -/
theorem c4_single_resolution_counterexample :
    (RemoteFunction.on_completed c4_f_obj [] c4_d 1 kFibreOk).2 = some PyErr.keyError ∧
    alookup (RemoteFunction.on_completed c4_f_obj [] c4_d 1 kFibreOk).1.calls 1 = Option.none ∧
    alookup (RemoteFunction.on_completed c4_f_obj [] c4_d 1 kFibreOk).1.futures 0 =
      some FutState.pending :=
  ⟨rfl, rfl, rfl⟩

/-- A zero-output function descriptor and a matching dispatcher state
for the C4 witness. -/
def c4w_f : RemoteFunction := ⟨23, [], []⟩

def c4w_d : DispatchState :=
  { calls := [(1, ⟨[], [], 0⟩)], futures := [(0, .pending)], next_future := 1,
    native_calls := [] }

/-- Witness for the amended C4 at a concrete ok completion. -/
theorem c4_completion_behaviour_witness :
    alookup (RemoteFunction.on_completed c4w_f [] c4w_d 1 kFibreOk).1.calls 1 = Option.none ∧
    (RemoteFunction.on_completed c4w_f [] c4w_d 1 kFibreOk).2 = Option.none ∧
    alookup (RemoteFunction.on_completed c4w_f [] c4w_d 1 kFibreOk).1.futures 0 =
      some (.result (resultOf [])) := by
  have h := c4_completion_behaviour c4w_f [] c4w_d 1 kFibreOk ⟨[], [], 0⟩ rfl (by unfold NodupKeys; decide) rfl
  exact ⟨h.1, ((h.2.2 rfl).1 [] rfl).1, ((h.2.2 rfl).1 [] rfl).2⟩

/-- Counterexample to C7 as stated: a destroyed proxy (produced by the
actual destroy pipeline) is neither absent nor a live proxy, yet
serializing it fails with `struct.error` — `struct.pack("P", None)` —
not with the Argument-error class (a local `TypeError` or a native
`ArgumentError`). -/
theorem c7_object_ref_codec_counterexample :
    destroy_object ⟨[(7, ⟨"H1", 7, 1, []⟩)], [(5, ⟨7, true, some 5, true⟩)]⟩ 5 =
      .ok (⟨[], []⟩, ⟨7, false, Option.none, false⟩) ∧
    ObjectPtrCodec.serialize (.obj ⟨7, false, Option.none, false⟩) = .error .structError ∧
    (∀ m, PyErr.structError ≠ .typeError m) ∧ PyErr.structError ≠ .argumentError := by
  refine ⟨rfl, rfl, ?_, ?_⟩
  · intro m h
    cases h
  · intro h
    cases h

/-- C7 (amended): the object-reference codec serializes absent to the
all-zero handle-width buffer, a live proxy to the little-endian bytes of
its handle, deserializes the zero buffer to absent, and serializing a
value that is not a proxy instance at all fails with a `TypeError` (the
design document's Argument-error class); serializing a destroyed proxy
instead fails with a `struct.error`. -/
theorem c7_object_ref_codec_amended :
    ObjectPtrCodec.serialize PyValue.none = .ok (natToLE 8 0) ∧
    natToLE 8 0 = List.replicate 8 0 ∧
    (∀ r h, r.obj_handle = some h → h < 2 ^ 64 →
      ObjectPtrCodec.serialize (.obj r) = .ok (natToLE 8 h)) ∧
    (∀ objs, ObjectPtrCodec.deserialize objs (List.replicate 8 0) = .ok PyValue.none) ∧
    (∀ v : PyValue, (∀ r, v ≠ .obj r) → v ≠ .none →
      ∃ m, ObjectPtrCodec.serialize v = .error (.typeError m)) ∧
    (∀ r, r.obj_handle = Option.none →
      ObjectPtrCodec.serialize (.obj r) = .error .structError) := by
  refine ⟨rfl, rfl, ?_, ?_, ?_, ?_⟩
  · intro r h hh hlt
    simp only [ObjectPtrCodec.serialize, hh]
    exact if_pos hlt
  · intro objs
    rfl
  · intro v hobj hnone
    cases v with
    | none => exact absurd rfl hnone
    | obj r => exact absurd rfl (hobj r)
    | int i => exact ⟨_, rfl⟩
    | bool b => exact ⟨_, rfl⟩
    | float bits => exact ⟨_, rfl⟩
    | tuple vs => exact ⟨_, rfl⟩
  · intro r hh
    simp [ObjectPtrCodec.serialize, hh]

/-- Witness for the amended C7: a live proxy with handle 5 and the
non-proxy value `3`. -/
theorem c7_object_ref_codec_amended_witness :
    ObjectPtrCodec.serialize (.obj ⟨7, true, some 5, true⟩) = .ok (natToLE 8 5) ∧
    (∃ m, ObjectPtrCodec.serialize (.int 3) = .error (.typeError m)) :=
  ⟨c7_object_ref_codec_amended.2.2.1 ⟨7, true, some 5, true⟩ 5 rfl (by decide),
   c7_object_ref_codec_amended.2.2.2.2.1 (.int 3) (fun r h => by cases h) (fun h => by cases h)⟩

/-- Counterexample to C8 as stated: calling a remote function through a
destroyed proxy (again produced by the actual destroy pipeline) fails
with an `AttributeError` — `instance._libfibre` is `None` when the
future is created — not with `ObjectLost`. -/
theorem c8_objectlost_counterexample :
    destroy_object ⟨[(9, ⟨"H9", 9, 1, []⟩)], [(6, ⟨9, true, some 6, true⟩)]⟩ 6 =
      .ok (⟨[], []⟩, ⟨9, false, Option.none, false⟩) ∧
    (RemoteFunction.call add_function ⟨9, false, Option.none, false⟩ [.int 3, .int 4] d0).2 =
      .error (.attributeError "'NoneType' object has no attribute 'loop'") ∧
    PyErr.attributeError "'NoneType' object has no attribute 'loop'" ≠ PyErr.objectLost := by
  refine ⟨rfl, rfl, fun h => by cases h⟩

/-- C8 (amended): operations on a destroyed proxy all fail, but not
uniformly with `ObjectLost`: serialization through the object-reference
codec fails with `struct.error`, calling a remote function through it
fails with an `AttributeError`, and an attribute read surfaces
`ObjectLost` (exactly) when the native get-attribute entry point reports
the closed status. -/
theorem c8_destroyed_proxy_amended (r : RemoteObject)
    (hh : r.obj_handle = Option.none) (hl : r.libfibre = false) :
    ObjectPtrCodec.serialize (.obj r) = .error .structError ∧
    (∀ f : RemoteFunction, ∀ args d tx, serializeArgs f.inputs args = .ok tx →
      f.inputs.length = args.length →
      (RemoteFunction.call f r args d).2 =
        .error (.attributeError "'NoneType' object has no attribute 'loop'")) ∧
    (∀ a : RemoteAttribute, ∀ s oh,
      (RemoteAttribute.get a s r kFibreClosed oh).2 = .error .objectLost) := by
  refine ⟨by simp [ObjectPtrCodec.serialize, hh], ?_, ?_⟩
  · intro f args d tx hser hlen
    simp [RemoteFunction.call, hser, hl, hlen]
  · intro a s oh
    simp [RemoteAttribute.get, RemoteAttribute.get_obj, get_exception,
      kFibreClosed, kFibreOk, kFibreCancelled]

/-- Witness for the amended C8 at a concrete destroyed proxy. -/
theorem c8_destroyed_proxy_amended_witness :
    ObjectPtrCodec.serialize (.obj ⟨9, false, Option.none, false⟩) = .error .structError ∧
    (RemoteFunction.call c4w_f ⟨9, false, Option.none, false⟩ [] d0).2 =
      .error (.attributeError "'NoneType' object has no attribute 'loop'") ∧
    (RemoteAttribute.get ⟨77, 99, Option.none, false, false⟩ ⟨[], []⟩
      ⟨9, false, Option.none, false⟩ kFibreClosed 0).2 = .error .objectLost :=
  ⟨(c8_destroyed_proxy_amended ⟨9, false, Option.none, false⟩ rfl rfl).1,
   (c8_destroyed_proxy_amended ⟨9, false, Option.none, false⟩ rfl rfl).2.1 c4w_f [] d0 [] rfl rfl,
   (c8_destroyed_proxy_amended ⟨9, false, Option.none, false⟩ rfl rfl).2.2 _ _ _⟩

/-- C10: deserializing, with the object-reference codec, a handle-width
buffer encoding a nonzero handle that is not registered in the object
registry fails with `KeyError` rather than yielding absent; absent is
produced only for the zero handle. -/
theorem c10_object_ref_deserialize_lookup :
    (∀ objs buf, buf.length = 8 → leToNat buf ≠ 0 →
      alookup objs (leToNat buf) = Option.none →
      ObjectPtrCodec.deserialize objs buf = .error .keyError) ∧
    (∀ objs buf, ObjectPtrCodec.deserialize objs buf = .ok PyValue.none →
      leToNat buf = 0) := by
  constructor
  · intro objs buf hlen hnz hlk
    simp [ObjectPtrCodec.deserialize, hlen, hnz, hlk]
  · intro objs buf hdes
    by_cases hlen : buf.length = 8
    · rw [ObjectPtrCodec.deserialize, if_pos hlen] at hdes
      by_cases hz : leToNat buf = 0
      · exact hz
      · exfalso
        simp only [if_neg hz] at hdes
        rcases halk : alookup objs (leToNat buf) with _ | r
        · rw [halk] at hdes
          cases hdes
        · rw [halk] at hdes
          injection hdes with hdes
          cases hdes
    · rw [ObjectPtrCodec.deserialize, if_neg hlen] at hdes
      cases hdes

/-- Witness for C10: the buffer encoding handle 1 over an empty object
registry. -/
theorem c10_object_ref_deserialize_lookup_witness :
    ObjectPtrCodec.deserialize [] (natToLE 8 1) = .error .keyError :=
  c10_object_ref_deserialize_lookup.1 [] (natToLE 8 1) (by decide) (by decide) rfl

/-- Fixture for the magic-property scenario: interface `H1` (handle 1)
cached with one live instance (object 8), and the property object
(object 9, of sub-interface 99) already registered. -/
def c6_s : LibFibreState :=
  ⟨[(1, ⟨"H1", 1, 1, []⟩)],
   [(9, ⟨99, true, some 9, true⟩), (8, ⟨1, true, some 8, true⟩)]⟩

/-- The instance whose `speed` attribute is read. -/
def c6_inst : RemoteObject := ⟨1, true, some 8, true⟩

/-- C6: adding attribute `speed` with sub-interface name
`"fibre.Property<float>"` installs the magic attribute `speed`
(magic getter, no magic setter) and the secondary non-magic
`_speed_property`; reading `speed` is redirected through the property
object's `read` function while `_speed_property` yields the property
object itself; and writing to `speed` fails because the name lacks the
`readwrite` marker. -/
theorem c6_magic_property_scenario :
    ∃ s', LibFibre.on_attribute_added c6_s 1 77 99 "speed" (some "fibre.Property<float>") =
      .ok s' ∧
    (∃ i, alookup s'.interfaces 1 = some i ∧
      alookup i.members "speed" =
        some (.attr ⟨77, 99, some "fibre.Property<float>", true, false⟩) ∧
      alookup i.members "_speed_property" =
        some (.attr ⟨77, 99, some "fibre.Property<float>", false, false⟩)) ∧
    (RemoteAttribute.get ⟨77, 99, some "fibre.Property<float>", true, false⟩ c6_s c6_inst
      kFibreOk 9).2 = .ok (.readOf ⟨99, true, some 9, true⟩) ∧
    (RemoteAttribute.get ⟨77, 99, some "fibre.Property<float>", false, false⟩ c6_s c6_inst
      kFibreOk 9).2 = .ok (.objItself ⟨99, true, some 9, true⟩) ∧
    (RemoteAttribute.set ⟨77, 99, some "fibre.Property<float>", true, false⟩ c6_s c6_inst
      kFibreOk 9 (.float 0)).2 = .error (.exception "this attribute cannot be written to") :=
  ⟨_, rfl, ⟨_, rfl, rfl, rfl⟩, rfl, rfl, rfl⟩

/-- The subscriber callbacks that `find_any`/`find_all`/`start_discovery`
register on the done signal: releasing the runtime refcount
(`decrement_lib_refcount`) and the native `libfibre_stop_discovery` for
a session. -/
inductive SubAction where
  | decRefcount
  | stopDiscovery (sid : Nat)
  deriving DecidableEq, Repr

/-- Modelled from the spec: `fibre.utils.Event` is not under `src/`.
Per the design document it is a one-shot signal: idempotent `set`,
subscriber callbacks fired synchronously once each at the moment it
transitions to set, in registration order; subscribing after it is set
fires the callback immediately; `wait` blocks with an optional timeout.
The returned list is the callbacks fired by the operation. -/
structure EventModel where
  is_set : Bool
  subscribers : List SubAction
  deriving DecidableEq, Repr

def EventModel.subscribe (e : EventModel) (a : SubAction) : EventModel × List SubAction :=
  if e.is_set then (e, [a]) else ({ e with subscribers := e.subscribers ++ [a] }, [])

def EventModel.set (e : EventModel) : EventModel × List SubAction :=
  if e.is_set then (e, []) else ({ e with is_set := true }, e.subscribers)

/-- Native discovery entry points invoked during a `find_any` run. -/
inductive NativeDiscoveryOp where
  | startDiscovery (sid : Nat)
  | stopDiscovery (sid : Nat)
  deriving DecidableEq, Repr

/-- The native calls performed by a list of fired subscriber callbacks. -/
def fired_ops : List SubAction → List NativeDiscoveryOp
  | [] => []
  | .decRefcount :: rest => fired_ops rest
  | .stopDiscovery sid :: rest => .stopDiscovery sid :: fired_ops rest

/-- A `find_any` run with `find_multiple` unset, over the one oracle the
model needs: whether some object was discovered before the timeout
expired.  Steps, following the source: create the done signal;
`find_all` subscribes the runtime release to it; `start_discovery`
assigns session id 1, subscribes the native stop entry point to it and
invokes the native start entry point (the source posts this onto the
loop; §5's subscribe-after-set rule makes the stop call happen either
way, so the model runs it before the wait); then either the discovery
callback appends the object and sets the signal and `wait` returns, or
`wait` raises `TimeoutError` and `None` is returned — in both branches
the `finally` block sets the done signal (a no-op if already set),
firing the stop-discovery subscriber on the transition.  Returns
(result, final done signal, native-call trace). -/
def find_any_run (found : Option Nat) :
    Option Nat × EventModel × List NativeDiscoveryOp :=
  let e0 : EventModel := ⟨false, []⟩
  let s1 := e0.subscribe .decRefcount
  let s2 := s1.1.subscribe (.stopDiscovery 1)
  let tr0 : List NativeDiscoveryOp := [.startDiscovery 1]
  match found with
  | some obj =>
    let s3 := s2.1.set
    let tr1 := tr0 ++ fired_ops s3.2
    let s4 := s3.1.set
    let tr2 := tr1 ++ fired_ops s4.2
    (some obj, s4.1, tr2)
  | Option.none =>
    let s3 := s2.1.set
    let tr1 := tr0 ++ fired_ops s3.2
    (Option.none, s3.1, tr1)

/-- C9: `find_any` with a timeout, `find_multiple` unset and no object
found returns absent, and by return time the done signal is set and the
native stop-discovery entry point has been invoked (terminating the
discovery); the signal is settled and the discovery stopped in the
found branch as well. -/
theorem c9_find_any_timeout :
    (find_any_run Option.none).1 = Option.none ∧
    (find_any_run Option.none).2.1.is_set = true ∧
    (find_any_run Option.none).2.2 =
      [.startDiscovery 1, .stopDiscovery 1] ∧
    (∀ found, (find_any_run found).2.1.is_set = true ∧
      NativeDiscoveryOp.stopDiscovery 1 ∈ (find_any_run found).2.2) := by
  refine ⟨rfl, rfl, rfl, ?_⟩
  intro found
  cases found with
  | none =>
    refine ⟨rfl, ?_⟩
    show NativeDiscoveryOp.stopDiscovery 1 ∈
      [NativeDiscoveryOp.startDiscovery 1, NativeDiscoveryOp.stopDiscovery 1]
    decide
  | some o =>
    refine ⟨rfl, ?_⟩
    show NativeDiscoveryOp.stopDiscovery 1 ∈
      [NativeDiscoveryOp.startDiscovery 1, NativeDiscoveryOp.stopDiscovery 1]
    decide
